import Mathlib

/-!
Shallow embedding of `fetch_file` (src/src/lib.rs): a small persistence
trait `Fetchable` offering three codec-specific deserializers
(`deserialize_bin`, `deserialize_json`, `deserialize_ron`), three
serializers (`serialize_bin`, `serialize_ron`, `serialize_json`), a
`save` method and the `fetch_or_default` recovery entry point.

Files are byte sequences (`List Nat`); the filesystem is an association
list from paths to contents.  Fallible I/O primitives are driven by an
explicit environment of failure flags, and every primitive appends an
event to a trace so that "no read attempted" is expressible.  Rust's
three-way outcome (normal return `Ok`, normal return `Err`, panic) is
the inductive `Outcome`.
-/

namespace FetchFile

/-- Errors that the embedded code can return, tagged by the failing
operation so that propagation claims are checkable. -/
inductive Err : Type
  | ioOpen (p : String)
  | ioRead (p : String)
  | ioCreate (p : String)
  | ioWrite (p : String)
  | ioSync (p : String)
  | decodeErr
  | encodeErr
deriving DecidableEq, Repr

/-- Whether an error is an I/O error (open, read, create, write or sync),
as opposed to a codec error. -/
def Err.isIo : Err → Bool
  | .ioOpen _ => true
  | .ioRead _ => true
  | .ioCreate _ => true
  | .ioWrite _ => true
  | .ioSync _ => true
  | .decodeErr => false
  | .encodeErr => false

/-- Result of running a piece of embedded Rust code: a normal return of a
value, a normal return of an error, or a panic (Rust `expect`). -/
inductive Outcome (α : Type) : Type
  | ok (a : α)
  | err (e : Err)
  | diverge (msg : String)
deriving DecidableEq, Repr

/-- Whether the outcome is a returned error. -/
def Outcome.isErr {α : Type} : Outcome α → Bool
  | .ok _ => false
  | .err _ => true
  | .diverge _ => false

/-- Filesystem events, recorded in order of occurrence. -/
inductive Ev : Type
  | existsCheck (p : String)
  | openR (p : String)
  | readEnd (p : String)
  | readStr (p : String)
  | create (p : String)
  | writeAll (p : String)
  | syncAll (p : String)
deriving DecidableEq, Repr

/-- Whether an event is a file read operation (open-for-read,
read-to-end or read-to-string). -/
def Ev.isRead : Ev → Bool
  | .openR _ => true
  | .readEnd _ => true
  | .readStr _ => true
  | _ => false

/-- A filesystem: paths mapped to byte contents. -/
def Fs : Type := List (String × List Nat)

instance : DecidableEq Fs := by
  unfold Fs
  infer_instance

/-- Contents at a path, first binding wins. -/
def fsGet : Fs → String → Option (List Nat)
  | [], _ => none
  | (q, b) :: t, p => if q = p then some b else fsGet t p

/-- Set the contents at a path, replacing an existing binding. -/
def fsSet : Fs → String → List Nat → Fs
  | [], p, b => [(p, b)]
  | (q, c) :: t, p, b => if q = p then (p, b) :: t else (q, c) :: fsSet t p b

/-- Machine state: the filesystem plus the trace of events so far. -/
structure St : Type where
  fs : Fs
  trace : List Ev
deriving DecidableEq

/-- Environment of I/O failure decisions: which primitive operations
fail at which path (permissions, disk errors, invalid UTF-8 for
`read_to_string`, ...). -/
structure Env : Type where
  openFails : String → Bool
  readFails : String → Bool
  readStrFails : String → Bool
  createFails : String → Bool
  writeFails : String → Bool
  syncFails : String → Bool

/-- The environment where every I/O primitive succeeds. -/
def Env.allOk : Env :=
  ⟨fun _ => false, fun _ => false, fun _ => false,
   fun _ => false, fun _ => false, fun _ => false⟩

/-- `path.exists()`: queries the filesystem, records the check. -/
def pathExists (p : String) (s : St) : Bool × St :=
  ((fsGet s.fs p).isSome, { s with trace := s.trace ++ [Ev.existsCheck p] })

/-- `File::open(f_path)?`: fails when the file is absent or the
environment makes the open fail. -/
def fileOpen (env : Env) (p : String) (s : St) : Outcome Unit × St :=
  let s1 : St := { s with trace := s.trace ++ [Ev.openR p] }
  match fsGet s.fs p with
  | none => (.err (.ioOpen p), s1)
  | some _ => if env.openFails p then (.err (.ioOpen p), s1) else (.ok (), s1)

/-- `file.read_to_end(&mut buffer)?`: returns the file's bytes, or an
I/O error when the environment makes the read fail. -/
def readToEnd (env : Env) (p : String) (s : St) : Outcome (List Nat) × St :=
  let s1 : St := { s with trace := s.trace ++ [Ev.readEnd p] }
  match fsGet s.fs p with
  | none => (.err (.ioRead p), s1)
  | some b => if env.readFails p then (.err (.ioRead p), s1) else (.ok b, s1)

/-- `file.read_to_string(&mut buffer)?`: like `readToEnd` but also fails
when the bytes are not valid UTF-8 (folded into `readStrFails`). -/
def readToStr (env : Env) (p : String) (s : St) : Outcome (List Nat) × St :=
  let s1 : St := { s with trace := s.trace ++ [Ev.readStr p] }
  match fsGet s.fs p with
  | none => (.err (.ioRead p), s1)
  | some b => if env.readStrFails p then (.err (.ioRead p), s1) else (.ok b, s1)

/-- `File::create(&path)?`: on success the file at `p` is created or
truncated to empty contents. -/
def fileCreate (env : Env) (p : String) (s : St) : Outcome Unit × St :=
  let s1 : St := { s with trace := s.trace ++ [Ev.create p] }
  if env.createFails p then (.err (.ioCreate p), s1)
  else (.ok (), { s1 with fs := fsSet s1.fs p [] })

/-- `f.write_all(content.as_slice())?`: on success the file holds the
written bytes. -/
def writeAllB (env : Env) (p : String) (content : List Nat) (s : St) :
    Outcome Unit × St :=
  let s1 : St := { s with trace := s.trace ++ [Ev.writeAll p] }
  if env.writeFails p then (.err (.ioWrite p), s1)
  else (.ok (), { s1 with fs := fsSet s1.fs p content })

/-- `f.sync_all()`: durability sync, succeeds or returns an I/O error. -/
def syncAllB (env : Env) (p : String) (s : St) : Outcome Unit × St :=
  let s1 : St := { s with trace := s.trace ++ [Ev.syncAll p] }
  if env.syncFails p then (.err (.ioSync p), s1) else (.ok (), s1)

/-- A serialization format for a value type `T`: the underlying library
transformations (bincode / serde_json / ron in the crate).  `enc` returns
`none` when the format cannot represent the value's shape; `dec` returns
`none` when the bytes do not parse as a `T`. -/
structure Codec (T : Type) where
  enc : T → Option (List Nat)
  dec : List Nat → Option T

/-- `Fetchable::deserialize_bin`: open the file, read all bytes, decode
with the binary codec; a decode failure is swallowed into `T::default()`
and returned as `Ok`. -/
def deserialize_bin {T : Type} (env : Env) (C : Codec T) (dflt : T)
    (p : String) (s : St) : Outcome T × St :=
  match fileOpen env p s with
  | (.ok _, s1) =>
    match readToEnd env p s1 with
    | (.ok buffer, s2) =>
      let item : T := match C.dec buffer with
        | some it => it
        | none => dflt
      (.ok item, s2)
    | (.err e, s2) => (.err e, s2)
    | (.diverge m, s2) => (.diverge m, s2)
  | (.err e, s1) => (.err e, s1)
  | (.diverge m, s1) => (.diverge m, s1)

/-- `Fetchable::deserialize_json`: open, read to string, decode with the
JSON codec; a decode failure is swallowed into `T::default()`. -/
def deserialize_json {T : Type} (env : Env) (C : Codec T) (dflt : T)
    (p : String) (s : St) : Outcome T × St :=
  match fileOpen env p s with
  | (.ok _, s1) =>
    match readToStr env p s1 with
    | (.ok buffer, s2) =>
      let item : T := match C.dec buffer with
        | some it => it
        | none => dflt
      (.ok item, s2)
    | (.err e, s2) => (.err e, s2)
    | (.diverge m, s2) => (.diverge m, s2)
  | (.err e, s1) => (.err e, s1)
  | (.diverge m, s1) => (.diverge m, s1)

/-- `Fetchable::deserialize_ron`: open, read to string, decode with the
RON codec; a decode failure is swallowed into `T::default()`. -/
def deserialize_ron {T : Type} (env : Env) (C : Codec T) (dflt : T)
    (p : String) (s : St) : Outcome T × St :=
  match fileOpen env p s with
  | (.ok _, s1) =>
    match readToStr env p s1 with
    | (.ok buffer, s2) =>
      let item : T := match C.dec buffer with
        | some it => it
        | none => dflt
      (.ok item, s2)
    | (.err e, s2) => (.err e, s2)
    | (.diverge m, s2) => (.diverge m, s2)
  | (.err e, s1) => (.err e, s1)
  | (.diverge m, s1) => (.diverge m, s1)

/-- `Fetchable::serialize_bin`: `bincode::serialize(self)?` — an
encoding failure is propagated with `?` as a returned error. -/
def serialize_bin {T : Type} (C : Codec T) (v : T) : Outcome (List Nat) :=
  match C.enc v with
  | some b => .ok b
  | none => .err .encodeErr

/-- `Fetchable::serialize_ron`:
`ron::ser::to_string_pretty(..).expect("Failed pretty string.")` — an
encoding failure panics, it is never returned as an error. -/
def serialize_ron {T : Type} (C : Codec T) (v : T) : Outcome (List Nat) :=
  match C.enc v with
  | some b => .ok b
  | none => .diverge "Failed pretty string."

/-- `Fetchable::serialize_json`:
`serde_json::ser::to_string_pretty(&self).expect("Failed pretty string.")`
— an encoding failure panics, it is never returned as an error. -/
def serialize_json {T : Type} (C : Codec T) (v : T) : Outcome (List Nat) :=
  match C.enc v with
  | some b => .ok b
  | none => .diverge "Failed pretty string."

/-- An implementation of the `Fetchable` trait for a type `T`: the
type's `Default` value plus the two methods an implementor supplies
(`deserialize_l`, `serialize_l`). -/
structure FetchableInst (T : Type) where
  default : T
  deserialize_l : Env → String → St → Outcome T × St
  serialize_l : T → Outcome (List Nat)

/-- `Fetchable::save`: `File::create(&path)?` first, then
`self.serialize_l()?`, then `write_all`, then `sync_all`. -/
def save {T : Type} (env : Env) (inst : FetchableInst T) (v : T)
    (p : String) (s : St) : Outcome Unit × St :=
  match fileCreate env p s with
  | (.ok _, s1) =>
    match inst.serialize_l v with
    | .ok content =>
      match writeAllB env p content s1 with
      | (.ok _, s2) =>
        match syncAllB env p s2 with
        | (.ok _, s3) => (.ok (), s3)
        | (.err e, s3) => (.err e, s3)
        | (.diverge m, s3) => (.diverge m, s3)
      | (.err e, s2) => (.err e, s2)
      | (.diverge m, s2) => (.diverge m, s2)
    | .err e => (.err e, s1)
    | .diverge m => (.diverge m, s1)
  | (.err e, s1) => (.err e, s1)
  | (.diverge m, s1) => (.diverge m, s1)

/-- `Fetchable::fetch_or_default`: existence check, then
`T::deserialize_l`; an `Err` from `deserialize_l` becomes
`(T::default(), true)`, a missing path becomes `(T::default(), true)`
without any read, a successful `deserialize_l` becomes `(t, false)`. -/
def fetch_or_default {T : Type} (env : Env) (inst : FetchableInst T)
    (p : String) (s : St) : Outcome (T × Bool) × St :=
  match pathExists p s with
  | (true, s1) =>
    match inst.deserialize_l env p s1 with
    | (.ok t, s2) => (.ok (t, false), s2)
    | (.err _, s2) => (.ok (inst.default, true), s2)
    | (.diverge m, s2) => (.diverge m, s2)
  | (false, s1) => (.ok (inst.default, true), s1)

/-- The `Fetchable` instance whose active codec is the binary one, as in
the crate's doc example (`deserialize_l = deserialize_bin`,
`serialize_l = serialize_bin`). -/
def mkBin {T : Type} (C : Codec T) (d : T) : FetchableInst T :=
  ⟨d, fun env p s => deserialize_bin env C d p s, fun v => serialize_bin C v⟩

/-- The `Fetchable` instance whose active codec is JSON. -/
def mkJson {T : Type} (C : Codec T) (d : T) : FetchableInst T :=
  ⟨d, fun env p s => deserialize_json env C d p s, fun v => serialize_json C v⟩

/-- The `Fetchable` instance whose active codec is RON. -/
def mkRon {T : Type} (C : Codec T) (d : T) : FetchableInst T :=
  ⟨d, fun env p s => deserialize_ron env C d p s, fun v => serialize_ron C v⟩

/-- The crate's doc-example value type:
`Config \x7b setting1: usize, setting2: usize \x7d`. -/
structure Config : Type where
  setting1 : Nat
  setting2 : Nat
deriving DecidableEq, Repr

/-- `Config::default()` from the crate's doc example:
`setting1 = 0`, `setting2 = 5`. -/
def Config.defaultC : Config := ⟨0, 5⟩

/-- Modelled from the spec: the `bincode` crate is absent from src; per
the spec the Binary codec is a "compact, non-human-readable,
position/order-dependent encoding of field values".  A `usize` is a
fixed 8-byte little-endian word; `Config` encodes as the two fields in
declaration order. -/
def u64le (n : Nat) : List Nat :=
  [n % 256, n / 256 % 256, n / 65536 % 256, n / 16777216 % 256,
   n / 4294967296 % 256, n / 1099511627776 % 256,
   n / 281474976710656 % 256, n / 72057594037927936 % 256]

/-- Value of an 8-byte little-endian word. -/
def leVal8 : List Nat → Nat
  | [b0, b1, b2, b3, b4, b5, b6, b7] =>
    b0 + 256 * b1 + 65536 * b2 + 16777216 * b3 + 4294967296 * b4 +
      1099511627776 * b5 + 281474976710656 * b6 + 72057594037927936 * b7
  | _ => 0

/-- Modelled from the spec: binary decode of a `Config` — exactly 16
bytes, two little-endian `usize` words in field order; anything else is
a decode failure. -/
def binDecConfig (bs : List Nat) : Option Config :=
  if bs.length = 16 then some ⟨leVal8 (bs.take 8), leVal8 (bs.drop 8)⟩
  else none

/-- The modelled Binary codec for `Config`. -/
def binCodecConfig : Codec Config :=
  ⟨fun c => some (u64le c.setting1 ++ u64le c.setting2), binDecConfig⟩

/-- Decimal digit bytes of `n` in ASCII, most significant first. -/
def digitsBytes (n : Nat) : List Nat :=
  if h : n < 10 then [48 + n]
  else digitsBytes (n / 10) ++ [48 + n % 10]
decreasing_by exact Nat.div_lt_self (by omega) (by omega)

/-- Whether a byte is an ASCII decimal digit. -/
def isDigitB (d : Nat) : Bool := decide (48 ≤ d ∧ d ≤ 57)

/-- Parse a leading run of decimal digits: returns the parsed number and
the rest of the input, or `none` when no digit leads. -/
def parseNatBytes (bs : List Nat) : Option (Nat × List Nat) :=
  let ds := bs.takeWhile isDigitB
  if ds = [] then none
  else some (ds.foldl (fun a d => a * 10 + (d - 48)) 0, bs.dropWhile isDigitB)

/-- Remove an expected literal byte sequence from the front of the
input; `none` when the input does not start with it. -/
def stripPref : List Nat → List Nat → Option (List Nat)
  | [], bs => some bs
  | _ :: _, [] => none
  | a :: pre, b :: bs => if a = b then stripPref pre bs else none

/-- Textual encoding of a `Config` as fixed punctuation around the two
decimal fields: `p1`, digits of `setting1`, `p2`, digits of `setting2`,
`p3`. -/
def encTwoFields (p1 p2 p3 : List Nat) (c : Config) : List Nat :=
  p1 ++ digitsBytes c.setting1 ++ p2 ++ digitsBytes c.setting2 ++ p3

/-- Textual decoding matching `encTwoFields`: strict parse of the
punctuation and the two decimal fields, `none` on any mismatch. -/
def decTwoFields (p1 p2 p3 : List Nat) (bs : List Nat) : Option Config :=
  match stripPref p1 bs with
  | none => none
  | some r1 =>
    match parseNatBytes r1 with
    | none => none
    | some (n1, r2) =>
      match stripPref p2 r2 with
      | none => none
      | some r3 =>
        match parseNatBytes r3 with
        | none => none
        | some (n2, r4) =>
          match stripPref p3 r4 with
          | none => none
          | some r5 => if r5 = [] then some ⟨n1, n2⟩ else none

/-- Bytes of the serde_json pretty header
`\x7b\n  "setting1": ` (ASCII codes). -/
def jsonP1 : List Nat :=
  [123, 10, 32, 32, 34, 115, 101, 116, 116, 105, 110, 103, 49, 34, 58, 32]

/-- Bytes of `,\n  "setting2": `. -/
def jsonP2 : List Nat :=
  [44, 10, 32, 32, 34, 115, 101, 116, 116, 105, 110, 103, 50, 34, 58, 32]

/-- Bytes of `\n\x7d`. -/
def jsonP3 : List Nat := [10, 125]

/-- Modelled from the spec: the `serde_json` crate is absent from src;
the JSON codec is the "standard textual tree encoding", here the pretty
printing of `Config` with its two numeric fields, decoded by the strict
parser of that form. -/
def jsonCodecConfig : Codec Config :=
  ⟨fun c => some (encTwoFields jsonP1 jsonP2 jsonP3 c),
   decTwoFields jsonP1 jsonP2 jsonP3⟩

/-- Bytes of the ron pretty header `(\n    setting1: ` (ASCII codes). -/
def ronP1 : List Nat :=
  [40, 10, 32, 32, 32, 32, 115, 101, 116, 116, 105, 110, 103, 49, 58, 32]

/-- Bytes of `,\n    setting2: `. -/
def ronP2 : List Nat :=
  [44, 10, 32, 32, 32, 32, 115, 101, 116, 116, 105, 110, 103, 50, 58, 32]

/-- Bytes of `,\n)`. -/
def ronP3 : List Nat := [44, 10, 41]

/-- Modelled from the spec: the `ron` crate is absent from src; the
StructuredText codec is the "readable, pretty-printed, key-ordered
textual encoding", here ron's pretty printing of `Config`, decoded by
the strict parser of that form. -/
def ronCodecConfig : Codec Config :=
  ⟨fun c => some (encTwoFields ronP1 ronP2 ronP3 c),
   decTwoFields ronP1 ronP2 ronP3⟩

lemma u64le_length (n : Nat) : (u64le n).length = 8 := by
  simp [u64le]

lemma leVal8_u64le (n : Nat) (h : n < 18446744073709551616) :
    leVal8 (u64le n) = n := by
  simp only [u64le, leVal8]
  omega

lemma binDecConfig_enc (c : Config)
    (h1 : c.setting1 < 18446744073709551616)
    (h2 : c.setting2 < 18446744073709551616) :
    binDecConfig (u64le c.setting1 ++ u64le c.setting2) = some c := by
  have hlen : (u64le c.setting1 ++ u64le c.setting2).length = 16 := by
    simp [u64le]
  have htake : (u64le c.setting1 ++ u64le c.setting2).take 8 = u64le c.setting1 := by
    rw [show (8 : Nat) = (u64le c.setting1).length from (u64le_length _).symm]
    exact List.take_left _ _
  have hdrop : (u64le c.setting1 ++ u64le c.setting2).drop 8 = u64le c.setting2 := by
    rw [show (8 : Nat) = (u64le c.setting1).length from (u64le_length _).symm]
    exact List.drop_left _ _
  rw [binDecConfig, if_pos hlen, htake, hdrop, leVal8_u64le _ h1, leVal8_u64le _ h2]

lemma digitsBytes_lt (n : Nat) (h : n < 10) : digitsBytes n = [48 + n] := by
  rw [digitsBytes.eq_def]
  simp [h]

lemma digitsBytes_ge (n : Nat) (h : ¬ n < 10) :
    digitsBytes n = digitsBytes (n / 10) ++ [48 + n % 10] := by
  rw [digitsBytes.eq_def]
  simp [h]

lemma digitsBytes_ne_nil (n : Nat) : digitsBytes n ≠ [] := by
  by_cases h : n < 10
  · simp [digitsBytes_lt n h]
  · simp [digitsBytes_ge n h]

lemma digitsBytes_all_digit (n : Nat) :
    ∀ d ∈ digitsBytes n, isDigitB d = true := by
  induction n using Nat.strong_induction_on with
  | _ n ih =>
    intro d hd
    by_cases h : n < 10
    · rw [digitsBytes_lt n h] at hd
      simp at hd
      simp [isDigitB, hd]
      omega
    · rw [digitsBytes_ge n h] at hd
      simp at hd
      rcases hd with hd | hd
      · exact ih (n / 10) (Nat.div_lt_self (by omega) (by omega)) d hd
      · have : n % 10 < 10 := Nat.mod_lt _ (by omega)
        simp [isDigitB, hd]
        omega

lemma parse_digitsBytes (n : Nat) :
    (digitsBytes n).foldl (fun a d => a * 10 + (d - 48)) 0 = n := by
  induction n using Nat.strong_induction_on with
  | _ n ih =>
    by_cases h : n < 10
    · simp [digitsBytes_lt n h]
    · have ihn := ih (n / 10) (Nat.div_lt_self (by omega) (by omega))
      simp [digitsBytes_ge n h, List.foldl_append, ihn]
      omega

lemma takeWhile_append_of_all {p : Nat → Bool} :
    ∀ (xs rest : List Nat), (∀ x ∈ xs, p x = true) →
      (∀ y ys, rest = y :: ys → p y = false) →
      (xs ++ rest).takeWhile p = xs ∧ (xs ++ rest).dropWhile p = rest
  | [], rest, _, hrest => by
    cases rest with
    | nil => simp
    | cons y ys => simp [List.takeWhile, List.dropWhile, hrest y ys rfl]
  | x :: xs, rest, hxs, hrest => by
    have hx : p x = true := hxs x (by simp)
    have ih := takeWhile_append_of_all xs rest
      (fun a ha => hxs a (by simp [ha])) hrest
    simp [List.takeWhile, List.dropWhile, hx, ih.1, ih.2]

lemma parseNatBytes_digits (n : Nat) (rest : List Nat)
    (hrest : ∀ y ys, rest = y :: ys → isDigitB y = false) :
    parseNatBytes (digitsBytes n ++ rest) = some (n, rest) := by
  have hsplit := takeWhile_append_of_all (digitsBytes n) rest
    (digitsBytes_all_digit n) hrest
  simp only [parseNatBytes, hsplit.1, hsplit.2]
  simp [digitsBytes_ne_nil n, parse_digitsBytes n]

lemma stripPref_append :
    ∀ (pre rest : List Nat), stripPref pre (pre ++ rest) = some rest
  | [], _ => rfl
  | a :: pre, rest => by simp [stripPref, stripPref_append pre rest]

lemma decTwoFields_enc (p1 p2 p3 : List Nat) (c : Config)
    (y2 : Nat) (t2 : List Nat) (hp2 : p2 = y2 :: t2) (hd2 : isDigitB y2 = false)
    (y3 : Nat) (t3 : List Nat) (hp3 : p3 = y3 :: t3) (hd3 : isDigitB y3 = false) :
    decTwoFields p1 p2 p3 (encTwoFields p1 p2 p3 c) = some c := by
  obtain ⟨s1, s2⟩ := c
  have hr1 : ∀ y ys, p2 ++ (digitsBytes s2 ++ p3) = y :: ys →
      isDigitB y = false := by
    intro y ys h
    rw [hp2] at h
    simp only [List.cons_append, List.cons.injEq] at h
    rw [← h.1]
    exact hd2
  have hr2 : ∀ y ys, p3 = y :: ys → isDigitB y = false := by
    intro y ys h
    rw [hp3] at h
    simp only [List.cons.injEq] at h
    rw [← h.1]
    exact hd3
  have e1 := stripPref_append p1 (digitsBytes s1 ++ (p2 ++ (digitsBytes s2 ++ p3)))
  have e2 := parseNatBytes_digits s1 (p2 ++ (digitsBytes s2 ++ p3)) hr1
  have e3 := stripPref_append p2 (digitsBytes s2 ++ p3)
  have e4 := parseNatBytes_digits s2 p3 hr2
  have e5 : stripPref p3 p3 = some [] := by
    have := stripPref_append p3 []
    simpa using this
  simp only [encTwoFields, List.append_assoc]
  simp only [decTwoFields, e1, e2, e3, e4, e5]
  simp

lemma jsonCodec_roundtrip (c : Config) :
    jsonCodecConfig.dec (encTwoFields jsonP1 jsonP2 jsonP3 c) = some c := by
  exact decTwoFields_enc jsonP1 jsonP2 jsonP3 c 44
    [10, 32, 32, 34, 115, 101, 116, 116, 105, 110, 103, 50, 34, 58, 32]
    rfl (by decide) 10 [125] rfl (by decide)

lemma ronCodec_roundtrip (c : Config) :
    ronCodecConfig.dec (encTwoFields ronP1 ronP2 ronP3 c) = some c := by
  exact decTwoFields_enc ronP1 ronP2 ronP3 c 44
    [10, 32, 32, 32, 32, 115, 101, 116, 116, 105, 110, 103, 50, 58, 32]
    rfl (by decide) 44 [10, 41] rfl (by decide)

/-- The value produced by the leniency policy of the deserializers: the
parsed value when decoding succeeded, `T::default()` otherwise. -/
def decOr {T : Type} (o : Option T) (d : T) : T :=
  match o with
  | some t => t
  | none => d

lemma fsGet_fsSet_self : ∀ (fs : Fs) (p : String) (b : List Nat),
    fsGet (fsSet fs p b) p = some b
  | [], _, _ => by simp [fsSet, fsGet]
  | (q, c) :: t, p, b => by
    by_cases h : q = p
    · simp [fsSet, h, fsGet]
    · simp [fsSet, h, fsGet, fsGet_fsSet_self t p b]

lemma fileOpen_fs (env : Env) (p : String) (s : St) :
    ((fileOpen env p s).2).fs = s.fs := by
  unfold fileOpen
  cases fsGet s.fs p
  · rfl
  · dsimp
    split <;> rfl

lemma readToEnd_fs (env : Env) (p : String) (s : St) :
    ((readToEnd env p s).2).fs = s.fs := by
  unfold readToEnd
  cases fsGet s.fs p
  · rfl
  · dsimp
    split <;> rfl

lemma readToStr_fs (env : Env) (p : String) (s : St) :
    ((readToStr env p s).2).fs = s.fs := by
  unfold readToStr
  cases fsGet s.fs p
  · rfl
  · dsimp
    split <;> rfl

lemma deserialize_bin_fs {T : Type} (env : Env) (C : Codec T) (d : T)
    (p : String) (s : St) : ((deserialize_bin env C d p s).2).fs = s.fs := by
  unfold deserialize_bin
  rcases ho : fileOpen env p s with ⟨r1, s1⟩
  have h1 : s1.fs = s.fs := by rw [← fileOpen_fs env p s, ho]
  cases r1 with
  | ok a =>
    rcases hr : readToEnd env p s1 with ⟨r2, s2⟩
    have h2 : s2.fs = s1.fs := by rw [← readToEnd_fs env p s1, hr]
    cases r2 <;> simp [hr, h1, h2]
  | err e => simpa using h1
  | diverge m => simpa using h1

lemma deserialize_json_fs {T : Type} (env : Env) (C : Codec T) (d : T)
    (p : String) (s : St) : ((deserialize_json env C d p s).2).fs = s.fs := by
  unfold deserialize_json
  rcases ho : fileOpen env p s with ⟨r1, s1⟩
  have h1 : s1.fs = s.fs := by rw [← fileOpen_fs env p s, ho]
  cases r1 with
  | ok a =>
    rcases hr : readToStr env p s1 with ⟨r2, s2⟩
    have h2 : s2.fs = s1.fs := by rw [← readToStr_fs env p s1, hr]
    cases r2 <;> simp [hr, h1, h2]
  | err e => simpa using h1
  | diverge m => simpa using h1

lemma deserialize_ron_fs {T : Type} (env : Env) (C : Codec T) (d : T)
    (p : String) (s : St) : ((deserialize_ron env C d p s).2).fs = s.fs := by
  unfold deserialize_ron
  rcases ho : fileOpen env p s with ⟨r1, s1⟩
  have h1 : s1.fs = s.fs := by rw [← fileOpen_fs env p s, ho]
  cases r1 with
  | ok a =>
    rcases hr : readToStr env p s1 with ⟨r2, s2⟩
    have h2 : s2.fs = s1.fs := by rw [← readToStr_fs env p s1, hr]
    cases r2 <;> simp [hr, h1, h2]
  | err e => simpa using h1
  | diverge m => simpa using h1

/-- The doc example's `Fetchable` implementation for `Config`: the active
codec is the binary one. -/
def binInstConfig : FetchableInst Config := mkBin binCodecConfig Config.defaultC

/-- A `Fetchable` implementation whose `deserialize_l` always returns an
error, as an implementor may (for instance on an I/O failure). -/
def errInstConfig : FetchableInst Config :=
  ⟨Config.defaultC, fun _ _ s => (.err .decodeErr, s), fun _ => .ok []⟩

/-- A `Fetchable` implementation whose `serialize_l` always fails with an
encoding error, as an implementor with a representational limit may. -/
def encodeFailInstConfig : FetchableInst Config :=
  ⟨Config.defaultC, fun _ _ s => (.ok Config.defaultC, s), fun _ => .err .encodeErr⟩

/-- Modelled from the spec: a value shape the textual formats cannot
express ("fails only if the underlying representation cannot express the
Value's shape"); its underlying encoder always fails. -/
def unrepresentableCodec : Codec Unit := ⟨fun _ => none, fun _ => none⟩

/-- C1: the spec states that for an existing path whose contents do not
decode, `fetch_or_default` returns `(T::default(), true)`, the flag being
true exactly when the value did not come from durable storage.  The code
disagrees: the default deserializers swallow a decode failure into
`Ok(T::default())`, so `fetch_or_default` takes its success branch and
reports `usedDefault = false`.  This theorem evaluates the code on a
corrupt file: the bytes `[1, 2, 3]` are not a binary `Config`, the
default value is substituted, yet the returned flag is `false`. -/
theorem fetch_or_default_corrupt_flag_false :
    fetch_or_default Env.allOk binInstConfig "config.bin"
      ⟨[("config.bin", [1, 2, 3])], []⟩
      = (.ok (Config.defaultC, false),
         ⟨[("config.bin", [1, 2, 3])],
          [Ev.existsCheck "config.bin", Ev.openR "config.bin",
           Ev.readEnd "config.bin"]⟩) := by
  decide

/-- C2 counterexample: `serialize_ron` on a value whose shape the format
cannot represent does not return an `Err`; it panics through
`expect("Failed pretty string.")`. -/
theorem serialize_ron_diverges_on_encode_failure :
    serialize_ron unrepresentableCodec ()
      = .diverge "Failed pretty string." := by
  decide

/-- C2 (amended): `serialize_ron` and `serialize_json` never return an
`Err`; when the underlying encoding fails they diverge (panic via
`expect`) with message "Failed pretty string.", and when it succeeds
they return `Ok` of the encoded bytes. -/
theorem serialize_textual_never_err {T : Type} (C : Codec T) (v : T) :
    (serialize_ron C v).isErr = false ∧
    (serialize_json C v).isErr = false ∧
    (C.enc v = none →
      serialize_ron C v = .diverge "Failed pretty string." ∧
      serialize_json C v = .diverge "Failed pretty string.") ∧
    (∀ b, C.enc v = some b →
      serialize_ron C v = .ok b ∧ serialize_json C v = .ok b) := by
  unfold serialize_ron serialize_json Outcome.isErr
  cases h : C.enc v <;> simp [h]

/-- Witness for the amended C2 at the concrete failing codec. -/
theorem serialize_textual_never_err_witness :
    (serialize_ron unrepresentableCodec ()).isErr = false ∧
    (serialize_json unrepresentableCodec ()).isErr = false ∧
    (serialize_ron unrepresentableCodec () = .diverge "Failed pretty string." ∧
     serialize_json unrepresentableCodec () = .diverge "Failed pretty string.") :=
  ⟨(serialize_textual_never_err unrepresentableCodec ()).1,
   (serialize_textual_never_err unrepresentableCodec ()).2.1,
   (serialize_textual_never_err unrepresentableCodec ()).2.2.1 rfl⟩

/-- C3 counterexample: `save` calls `File::create` before `serialize_l`.
Starting from a filesystem with no file at "cfg", a `save` whose encoding
fails returns the encode error, but the file at "cfg" now exists (empty):
the failed save modified durable state. -/
theorem save_truncates_before_encoding :
    fsGet ([] : Fs) "cfg" = none ∧
    save Env.allOk encodeFailInstConfig Config.defaultC "cfg" ⟨[], []⟩
      = (.err .encodeErr, ⟨[("cfg", [])], [Ev.create "cfg"]⟩) ∧
    fsGet ([("cfg", ([] : List Nat))] : Fs) "cfg" = some [] := by
  decide

/-- C3 (amended): `save` creates/truncates the file before encoding:
when file creation succeeds and `serialize_l` fails, `save` returns the
encoding error, but the file at the path has already been created or
truncated to empty contents. -/
theorem save_encode_failure_truncates {T : Type} (env : Env)
    (inst : FetchableInst T) (v : T) (p : String) (s : St) (e : Err)
    (hc : env.createFails p = false) (henc : inst.serialize_l v = .err e) :
    save env inst v p s
      = (.err e, ⟨fsSet s.fs p [], s.trace ++ [Ev.create p]⟩) := by
  unfold save fileCreate
  simp [hc, henc]

/-- Witness for the amended C3 at a concrete state with prior contents. -/
theorem save_encode_failure_truncates_witness :
    save Env.allOk encodeFailInstConfig ⟨1, 1⟩ "w3" ⟨[("w3", [7])], []⟩
      = (.err .encodeErr, ⟨[("w3", [])], [Ev.create "w3"]⟩) :=
  save_encode_failure_truncates Env.allOk encodeFailInstConfig ⟨1, 1⟩ "w3"
    ⟨[("w3", [7])], []⟩ .encodeErr rfl rfl

/-- C4: `fetch_or_default` never returns an `Err`: its returned outcome
is never an error, and an `Err` from `deserialize_l` on an existing path
is converted into `Ok((T::default(), true))`. -/
theorem fetch_or_default_never_err {T : Type} (env : Env)
    (inst : FetchableInst T) (p : String) (s : St) :
    ((fetch_or_default env inst p s).1.isErr = false) ∧
    (∀ e s2, (fsGet s.fs p).isSome = true →
      inst.deserialize_l env p { s with trace := s.trace ++ [Ev.existsCheck p] }
        = (.err e, s2) →
      fetch_or_default env inst p s = (.ok (inst.default, true), s2)) := by
  constructor
  · unfold fetch_or_default pathExists
    cases hex : (fsGet s.fs p).isSome
    · simp [Outcome.isErr]
    · rcases hd : inst.deserialize_l env p
          { s with trace := s.trace ++ [Ev.existsCheck p] } with ⟨r, s2⟩
      cases r <;> simp [hd, Outcome.isErr]
  · intro e s2 hex hd
    unfold fetch_or_default pathExists
    simp [hex, hd]

/-- Witness for C4: a `Fetchable` instance whose `deserialize_l` errors
still yields a successful pair with the default and flag `true`. -/
theorem fetch_or_default_never_err_witness :
    ((fetch_or_default Env.allOk errInstConfig "p" ⟨[("p", [])], []⟩).1.isErr
       = false) ∧
    fetch_or_default Env.allOk errInstConfig "p" ⟨[("p", [])], []⟩
      = (.ok (Config.defaultC, true), ⟨[("p", [])], [Ev.existsCheck "p"]⟩) :=
  ⟨(fetch_or_default_never_err Env.allOk errInstConfig "p" ⟨[("p", [])], []⟩).1,
   (fetch_or_default_never_err Env.allOk errInstConfig "p"
      ⟨[("p", [])], []⟩).2 .decodeErr ⟨[("p", [])], [Ev.existsCheck "p"]⟩
     (by decide) rfl⟩

/-- C5: for a path absent from the filesystem, `fetch_or_default`
returns `(T::default(), true)` and the only event performed is the
existence check — in particular no file read (open, read-to-end or
read-to-string) is attempted. -/
theorem fetch_or_default_absent {T : Type} (env : Env)
    (inst : FetchableInst T) (p : String) (s : St)
    (h : fsGet s.fs p = none) :
    fetch_or_default env inst p s
      = (.ok (inst.default, true),
         { s with trace := s.trace ++ [Ev.existsCheck p] }) ∧
    (((fetch_or_default env inst p s).2.trace.drop s.trace.length).all
        (fun ev => !ev.isRead)) = true := by
  have h1 : fetch_or_default env inst p s
      = (.ok (inst.default, true),
         { s with trace := s.trace ++ [Ev.existsCheck p] }) := by
    unfold fetch_or_default pathExists
    simp [h]
  refine ⟨h1, ?_⟩
  rw [h1]
  simp [Ev.isRead]

/-- Witness for C5 at a filesystem holding only an unrelated file. -/
theorem fetch_or_default_absent_witness :
    fetch_or_default Env.allOk binInstConfig "missing" ⟨[("other", [1])], []⟩
      = (.ok (Config.defaultC, true),
         ⟨[("other", [1])], [Ev.existsCheck "missing"]⟩) ∧
    (((fetch_or_default Env.allOk binInstConfig "missing"
        ⟨[("other", [1])], []⟩).2.trace.drop 0).all
        (fun ev => !ev.isRead)) = true :=
  fetch_or_default_absent Env.allOk binInstConfig "missing"
    ⟨[("other", [1])], []⟩ (by decide)

/-- C6: when encoding succeeds, `save` returns `Ok(())` exactly when
file creation, the write and the durability sync all succeed; when one
of them fails, `save` returns that `IoError`; and on success the file
holds all the encoded bytes. -/
theorem save_ok_iff_io_ok {T : Type} (env : Env) (inst : FetchableInst T)
    (v : T) (p : String) (s : St) (bytes : List Nat)
    (henc : inst.serialize_l v = .ok bytes) :
    ((∃ s2, save env inst v p s = (.ok (), s2)) ↔
      (env.createFails p = false ∧ env.writeFails p = false ∧
       env.syncFails p = false)) ∧
    (env.createFails p = true →
      (save env inst v p s).1 = .err (.ioCreate p)) ∧
    (env.createFails p = false → env.writeFails p = true →
      (save env inst v p s).1 = .err (.ioWrite p)) ∧
    (env.createFails p = false → env.writeFails p = false →
      env.syncFails p = true → (save env inst v p s).1 = .err (.ioSync p)) ∧
    (∀ s2, save env inst v p s = (.ok (), s2) → fsGet s2.fs p = some bytes) := by
  unfold save fileCreate writeAllB syncAllB
  cases hc : env.createFails p <;> cases hw : env.writeFails p <;>
    cases hsyn : env.syncFails p <;>
    simp [henc, hc, hw, hsyn, fsGet_fsSet_self]

/-- Witness for C6: a successful save of a concrete `Config` through the
binary instance at an all-succeeding environment. -/
theorem save_ok_iff_io_ok_witness :
    ((∃ s2, save Env.allOk binInstConfig ⟨1, 2⟩ "cfg" ⟨[], []⟩ = (.ok (), s2)) ↔
      (Env.allOk.createFails "cfg" = false ∧ Env.allOk.writeFails "cfg" = false ∧
       Env.allOk.syncFails "cfg" = false)) ∧
    (Env.allOk.createFails "cfg" = true →
      (save Env.allOk binInstConfig ⟨1, 2⟩ "cfg" ⟨[], []⟩).1 = .err (.ioCreate "cfg")) ∧
    (Env.allOk.createFails "cfg" = false → Env.allOk.writeFails "cfg" = true →
      (save Env.allOk binInstConfig ⟨1, 2⟩ "cfg" ⟨[], []⟩).1 = .err (.ioWrite "cfg")) ∧
    (Env.allOk.createFails "cfg" = false → Env.allOk.writeFails "cfg" = false →
      Env.allOk.syncFails "cfg" = true →
      (save Env.allOk binInstConfig ⟨1, 2⟩ "cfg" ⟨[], []⟩).1 = .err (.ioSync "cfg")) ∧
    (∀ s2, save Env.allOk binInstConfig ⟨1, 2⟩ "cfg" ⟨[], []⟩ = (.ok (), s2) →
      fsGet s2.fs "cfg" = some [1, 0, 0, 0, 0, 0, 0, 0, 2, 0, 0, 0, 0, 0, 0, 0]) :=
  save_ok_iff_io_ok Env.allOk binInstConfig ⟨1, 2⟩ "cfg" ⟨[], []⟩
    [1, 0, 0, 0, 0, 0, 0, 0, 2, 0, 0, 0, 0, 0, 0, 0] (by decide)

/-- C7: for a value that round-trips through the active (binary) codec,
a successful `save` followed by `fetch_or_default` on the same path
returns `(v, false)`. -/
theorem save_then_fetch {T : Type} (env : Env) (C : Codec T) (d v : T)
    (p : String) (s : St) (bytes : List Nat)
    (henc : C.enc v = some bytes) (hdec : C.dec bytes = some v)
    (hc : env.createFails p = false) (hw : env.writeFails p = false)
    (hsyn : env.syncFails p = false) (ho : env.openFails p = false)
    (hr : env.readFails p = false) :
    ∃ s2 s3, save env (mkBin C d) v p s = (.ok (), s2) ∧
      fetch_or_default env (mkBin C d) p s2 = (.ok (v, false), s3) := by
  refine ⟨⟨fsSet (fsSet s.fs p []) p bytes,
      ((s.trace ++ [Ev.create p]) ++ [Ev.writeAll p]) ++ [Ev.syncAll p]⟩,
    ?_, ?_, ?_⟩
  · exact ⟨fsSet (fsSet s.fs p []) p bytes,
      (((((s.trace ++ [Ev.create p]) ++ [Ev.writeAll p]) ++ [Ev.syncAll p])
          ++ [Ev.existsCheck p]) ++ [Ev.openR p]) ++ [Ev.readEnd p]⟩
  · unfold save fileCreate writeAllB syncAllB
    simp [mkBin, serialize_bin, henc, hc, hw, hsyn]
  · unfold fetch_or_default pathExists
    simp only [mkBin]
    unfold deserialize_bin fileOpen readToEnd
    simp [fsGet_fsSet_self, ho, hr, hdec]

/-- Witness for C7: saving `Config ⟨1, 2⟩` through the binary instance
and fetching it back. -/
theorem save_then_fetch_witness :
    ∃ s2 s3, save Env.allOk (mkBin binCodecConfig Config.defaultC) ⟨1, 2⟩
        "config.bin" ⟨[], []⟩ = (.ok (), s2) ∧
      fetch_or_default Env.allOk (mkBin binCodecConfig Config.defaultC)
        "config.bin" s2 = (.ok (⟨1, 2⟩, false), s3) :=
  save_then_fetch Env.allOk binCodecConfig Config.defaultC ⟨1, 2⟩
    "config.bin" ⟨[], []⟩ [1, 0, 0, 0, 0, 0, 0, 0, 2, 0, 0, 0, 0, 0, 0, 0]
    (by decide) (by decide) rfl rfl rfl rfl rfl

/-- C8: for every `Config` within `usize` bounds, decoding the bytes
produced by encoding yields the value back, for each of the three
codecs (binary, JSON, RON). -/
theorem codec_roundtrip (c : Config)
    (h1 : c.setting1 < 18446744073709551616)
    (h2 : c.setting2 < 18446744073709551616) :
    (∀ bs, serialize_bin binCodecConfig c = .ok bs →
      binCodecConfig.dec bs = some c) ∧
    (∀ bs, serialize_json jsonCodecConfig c = .ok bs →
      jsonCodecConfig.dec bs = some c) ∧
    (∀ bs, serialize_ron ronCodecConfig c = .ok bs →
      ronCodecConfig.dec bs = some c) := by
  refine ⟨?_, ?_, ?_⟩ <;> intro bs h
  · simp [serialize_bin, binCodecConfig] at h
    rw [← h]
    exact binDecConfig_enc c h1 h2
  · simp [serialize_json, jsonCodecConfig] at h
    rw [← h]
    exact jsonCodec_roundtrip c
  · simp [serialize_ron, ronCodecConfig] at h
    rw [← h]
    exact ronCodec_roundtrip c

/-- Witness for C8 at the default `Config ⟨0, 5⟩`. -/
theorem codec_roundtrip_witness :
    (∀ bs, serialize_bin binCodecConfig ⟨0, 5⟩ = .ok bs →
      binCodecConfig.dec bs = some ⟨0, 5⟩) ∧
    (∀ bs, serialize_json jsonCodecConfig ⟨0, 5⟩ = .ok bs →
      jsonCodecConfig.dec bs = some ⟨0, 5⟩) ∧
    (∀ bs, serialize_ron ronCodecConfig ⟨0, 5⟩ = .ok bs →
      ronCodecConfig.dec bs = some ⟨0, 5⟩) :=
  codec_roundtrip ⟨0, 5⟩ (by decide) (by decide)

/-- C9: each of the three deserializers, once the file opens and its
bytes are read, returns `Ok` — the parsed value when decoding succeeds,
`T::default()` otherwise — and it returns an `Err` only for an I/O
failure (open or read), never for a decode failure. -/
theorem deserializers_ok_unless_io {T : Type} (env : Env) (C : Codec T)
    (d : T) (p : String) (s : St) :
    ((∀ b, fsGet s.fs p = some b → env.openFails p = false →
      env.readFails p = false →
      (deserialize_bin env C d p s).1 = .ok (decOr (C.dec b) d)) ∧
     (∀ e, (deserialize_bin env C d p s).1 = .err e → e.isIo = true)) ∧
    ((∀ b, fsGet s.fs p = some b → env.openFails p = false →
      env.readStrFails p = false →
      (deserialize_json env C d p s).1 = .ok (decOr (C.dec b) d)) ∧
     (∀ e, (deserialize_json env C d p s).1 = .err e → e.isIo = true)) ∧
    ((∀ b, fsGet s.fs p = some b → env.openFails p = false →
      env.readStrFails p = false →
      (deserialize_ron env C d p s).1 = .ok (decOr (C.dec b) d)) ∧
     (∀ e, (deserialize_ron env C d p s).1 = .err e → e.isIo = true)) := by
  refine ⟨⟨?_, ?_⟩, ⟨?_, ?_⟩, ⟨?_, ?_⟩⟩
  · intro b hb ho hr
    unfold deserialize_bin fileOpen readToEnd
    simp [hb, ho, hr, decOr]
  · intro e he
    unfold deserialize_bin fileOpen readToEnd at he
    rcases hfs : fsGet s.fs p with _ | b
    · simp [hfs] at he
      cases he
      rfl
    · by_cases ho : env.openFails p
      · simp [hfs, ho] at he
        cases he
        rfl
      · by_cases hr : env.readFails p
        · simp [hfs, ho, hr] at he
          cases he
          rfl
        · simp [hfs, ho, hr] at he
  · intro b hb ho hr
    unfold deserialize_json fileOpen readToStr
    simp [hb, ho, hr, decOr]
  · intro e he
    unfold deserialize_json fileOpen readToStr at he
    rcases hfs : fsGet s.fs p with _ | b
    · simp [hfs] at he
      cases he
      rfl
    · by_cases ho : env.openFails p
      · simp [hfs, ho] at he
        cases he
        rfl
      · by_cases hr : env.readStrFails p
        · simp [hfs, ho, hr] at he
          cases he
          rfl
        · simp [hfs, ho, hr] at he
  · intro b hb ho hr
    unfold deserialize_ron fileOpen readToStr
    simp [hb, ho, hr, decOr]
  · intro e he
    unfold deserialize_ron fileOpen readToStr at he
    rcases hfs : fsGet s.fs p with _ | b
    · simp [hfs] at he
      cases he
      rfl
    · by_cases ho : env.openFails p
      · simp [hfs, ho] at he
        cases he
        rfl
      · by_cases hr : env.readStrFails p
        · simp [hfs, ho, hr] at he
          cases he
          rfl
        · simp [hfs, ho, hr] at he

/-- Witness for C9: reading a corrupt file through the binary
deserializer still returns `Ok` (of the default). -/
theorem deserializers_ok_unless_io_witness :
    (deserialize_bin Env.allOk binCodecConfig Config.defaultC "c"
        ⟨[("c", [1, 2, 3])], []⟩).1
      = .ok (decOr (binCodecConfig.dec [1, 2, 3]) Config.defaultC) :=
  (deserializers_ok_unless_io Env.allOk binCodecConfig Config.defaultC "c"
      ⟨[("c", [1, 2, 3])], []⟩).1.1 [1, 2, 3] (by decide) rfl rfl

/-- C10: `fetch_or_default` leaves the filesystem unchanged whenever its
`deserialize_l` does (as the three provided deserializers do): only the
event trace grows, no path's contents change. -/
theorem fetch_or_default_fs_frame {T : Type} (env : Env)
    (inst : FetchableInst T) (p : String) (s : St)
    (h : ∀ s', ((inst.deserialize_l env p s').2).fs = s'.fs) :
    ((fetch_or_default env inst p s).2).fs = s.fs := by
  unfold fetch_or_default pathExists
  cases hex : (fsGet s.fs p).isSome
  · simp
  · rcases hd : inst.deserialize_l env p
        { s with trace := s.trace ++ [Ev.existsCheck p] } with ⟨r, s2⟩
    have h2 : s2.fs = s.fs := by
      have h3 := h { s with trace := s.trace ++ [Ev.existsCheck p] }
      rw [hd] at h3
      simpa using h3
    cases r <;> simp [hd, h2]

/-- Witness for C10: fetching a corrupt binary file leaves the
filesystem exactly as it was. -/
theorem fetch_or_default_fs_frame_witness :
    ((fetch_or_default Env.allOk binInstConfig "config.bin"
        ⟨[("config.bin", [1, 2, 3])], []⟩).2).fs
      = [("config.bin", [1, 2, 3])] :=
  fetch_or_default_fs_frame Env.allOk binInstConfig "config.bin"
    ⟨[("config.bin", [1, 2, 3])], []⟩
    (fun s' => deserialize_bin_fs Env.allOk binCodecConfig Config.defaultC
      "config.bin" s')

end FetchFile
